import Mathlib

/-!
# Verification of the `wander` Wandbox API client

Shallow embedding of `src/wander/wander.py` (the `Wandbox` class and the
`_disconnect` exit hook) together with the parts of its dependencies that the
client's control flow runs through (`json.JSONDecoder` / `ndjson.Decoder`
selection, aiohttp's `raise_for_status`).

Python values flowing through the client are JSON-shaped, so we model them
with an inductive `Json` type.  External decoding of a string into a `Json`
value (Python's `json.JSONDecoder().decode`) is kept abstract: definitions
that use it take a `jdecode : String → Option Json` parameter (`none` models
a raised `JSONDecodeError`).
-/

set_option autoImplicit false

namespace Wander

/-- Python values produced by JSON decoding: `None`, booleans, numbers
(modelled as integers; the distinction between int and float plays no role in
this client), strings, lists and dicts (insertion-ordered association
lists, as Python dicts are). -/
inductive Json where
  | null : Json
  | bool : Bool → Json
  | num : Int → Json
  | str : String → Json
  | arr : List Json → Json
  | obj : List (String × Json) → Json
deriving Repr

/-- First-match lookup in an association list, modelling Python dict
indexing `d[k]`: `none` models a raised `KeyError`.  (A decoded JSON object
has unique keys, so first-match agrees with dict semantics.) -/
def lookupKey (kvs : List (String × Json)) (k : String) : Option Json :=
  match kvs with
  | [] => none
  | (k', v) :: rest => if k' = k then some v else lookupKey rest k

/-- `isinstance(x, dict)` on a decoded value. -/
def Json.isObj : Json → Bool
  | .obj _ => true
  | _ => false

/-- Splitting a character sequence into lines at `'\n'` (what
`str.splitlines` does on the newline-separated ND-JSON bodies this client
feeds it).  The result always has one (possibly empty) segment more than
there are newlines. -/
def splitLinesChars : List Char → List (List Char)
  | [] => [[]]
  | c :: rest =>
    match splitLinesChars rest with
    | [] => [[c]]
    | l :: ls => if c = '\n' then [] :: l :: ls else (c :: l) :: ls

/-- `x.strip()` is falsy exactly when every character of the line is
whitespace. -/
def isBlankLine (cs : List Char) : Bool :=
  cs.all Char.isWhitespace

/-- The non-blank lines of a string:
`filter(lambda x: x.strip(), s.splitlines())` as performed by
`ndjson.Decoder.decode`. -/
def nonblankLines (s : String) : List String :=
  ((splitLinesChars s.data).filter (fun cs => !isBlankLine cs)).map
    (fun cs => String.mk cs)

/-- `ndjson.Decoder().decode`: joins the non-blank lines with `','`, wraps
them in `'[' ... ']'` and JSON-decodes the result, i.e. it decodes each
non-blank line as one JSON document and returns the Python list of the
decoded documents in line order.  With the line-level decoder abstract this
is `mapM` over the non-blank lines; any line failing to decode fails the
whole decode (`none`). -/
def ndjsonDecode (jdecode : String → Option Json) (s : String) : Option Json :=
  ((nonblankLines s).mapM jdecode).map Json.arr

/-- An HTTP response as the client observes it: `aiohttp.ClientResponse`'s
status, declared content type and body text (already charset-decoded; the
client passes `response.charset` through unchanged, which we elide). -/
structure HttpResponse where
  status : Nat
  content_type : String
  body : String

namespace Wandbox

/-- `Wandbox.url = "https://wandbox.org/api/{0}"` applied via
`self.url.format(endpoint)`: substitutes the endpoint path into the fixed
base-URL template. -/
def urlFormat (endpoint : String) : String :=
  "https://wandbox.org/api/" ++ endpoint

/-- `Wandbox._parse_response`:
`decoder = ndjson.Decoder if (response.content_type == 'application/x-ndjson') else json.JSONDecoder`,
then `response.json(content_type=response.content_type, loads=decoder().decode, ...)`,
which applies the selected decoder's `decode` to the full body text.  (The
content-type check inside `response.json` is passed the response's own
content type, so it never rejects.) -/
def parse_response (jdecode : String → Option Json) (r : HttpResponse) :
    Option Json :=
  if r.content_type = "application/x-ndjson" then
    ndjsonDecode jdecode r.body
  else
    jdecode r.body

/-- `aiohttp.ClientResponseError` as raised by
`ClientResponse.raise_for_status`, which packs the response status and the
request's URL (via `request_info`).  The spec calls this `HTTPStatusError`. -/
structure ClientResponseError where
  status : Nat
  url : String
deriving Repr, DecidableEq

/-- `response.raise_for_status()` then `await self._parse_response(response)`,
the shared tail of `Wandbox._get` and `Wandbox._post`.  aiohttp's
`raise_for_status` raises `ClientResponseError` iff `not self.ok`, where
`ok` is `400 > self.status`; otherwise the body is decoded.  An inner `none`
models a decode error. -/
def handle (jdecode : String → Option Json) (url : String) (r : HttpResponse) :
    Except ClientResponseError (Option Json) :=
  if 400 ≤ r.status then
    .error ⟨r.status, url⟩
  else
    .ok (parse_response jdecode r)

/-! ## Endpoint request construction

Each endpoint method builds a URL, headers and a body and hands them to
`_get`/`_post`.  `Request` records exactly what the method passes to the
transport.  `data`/`params` hold the association list that the method
serializes with `json.dumps` (which preserves dict insertion order); `none`
means the keyword is not passed at all. -/

/-- HTTP verb of a request. -/
inductive Verb where
  | get : Verb
  | post : Verb
deriving Repr, DecidableEq

/-- What an endpoint method hands to `self.session.get`/`.post`: the URL, the
`headers=` dict if passed, the `data=` payload if passed (as the dict fed to
`json.dumps`), and the `params=` payload if passed. -/
structure Request where
  verb : Verb
  url : String
  headers : Option (List (String × String))
  data : Option (List (String × Json))
  params : Option (List (String × Json))
deriving Repr

/-- `{'Content-type': 'application/json', 'Accept': 'text/plain'}`, the
headers dict built in `compilers` and `compile`. -/
def jsonHeaders : List (String × String) :=
  [("Content-type", "application/json"), ("Accept", "text/plain")]

/-- `{'Content-type': 'application/x-ndjson', 'Accept': 'text/plain'}`, the
headers dict built in `compile_nd`. -/
def ndjsonHeaders : List (String × String) :=
  [("Content-type", "application/x-ndjson"), ("Accept", "text/plain")]

/-- The `params` dict literal of `Wandbox.compile` (source lines 236–245).
Python is dynamically typed, so the option-raw/save parameters are modelled
as arbitrary `Json` values; the signature defaults them to `False`
(`.bool false`). -/
def compileParams (code : String) (codes : List Json) (compiler : String)
    (compiler_option_raw : Json) (options : String) (runtime_option_raw : Json)
    (save : Json) (stdin : String) : List (String × Json) :=
  [("code", .str code),
   ("codes", .arr codes),
   ("compiler", .str compiler),
   ("compiler-option-raw", compiler_option_raw),
   ("options", .str options),
   ("runtime-option-raw", runtime_option_raw),
   ("save", save),
   ("stdin", .str stdin)]

/-- The `params` dict literal of `Wandbox.compile_nd` (source lines 276–284);
same fields as `compile` minus `save`. -/
def compile_ndParams (code : String) (codes : List Json) (compiler : String)
    (compiler_option_raw : Json) (options : String) (runtime_option_raw : Json)
    (stdin : String) : List (String × Json) :=
  [("code", .str code),
   ("codes", .arr codes),
   ("compiler", .str compiler),
   ("compiler-option-raw", compiler_option_raw),
   ("options", .str options),
   ("runtime-option-raw", runtime_option_raw),
   ("stdin", .str stdin)]

/-- The `params` dict literal of `Wandbox.post_permlink` (source lines
317–326); the `compile` fields minus `save`, plus `results`. -/
def post_permlinkParams (code : String) (codes : List Json) (compiler : String)
    (compiler_option_raw : Json) (options : String) (results : List Json)
    (runtime_option_raw : Json) (stdin : String) : List (String × Json) :=
  [("code", .str code),
   ("codes", .arr codes),
   ("compiler", .str compiler),
   ("compiler-option-raw", compiler_option_raw),
   ("options", .str options),
   ("results", .arr results),
   ("runtime-option-raw", runtime_option_raw),
   ("stdin", .str stdin)]

/-- The request `Wandbox.compilers` issues:
`self._get(url=self.url.format("list.json"), headers=headers)` with the JSON
headers dict. -/
def compilersRequest : Request :=
  ⟨.get, urlFormat "list.json", some jsonHeaders, none, none⟩

/-- The request `Wandbox.get_permlink` issues:
`self._get(url=self.url.format(f"permlink/{link}"))` — no headers, no body. -/
def get_permlinkRequest (link : String) : Request :=
  ⟨.get, urlFormat ("permlink/" ++ link), none, none, none⟩

/-- The request `Wandbox.get_template` issues:
`self._get(url=self.url.format(f"template/{name}"))` — no headers, no body. -/
def get_templateRequest (name : String) : Request :=
  ⟨.get, urlFormat ("template/" ++ name), none, none, none⟩

/-- The request `Wandbox.get_user` issues:
`self._get(url=self.url.format("url.json"), data=json.dumps({'session': session}))`
— no headers. -/
def get_userRequest (session : String) : Request :=
  ⟨.get, urlFormat "url.json", none, some [("session", .str session)], none⟩

/-- The request `Wandbox.compile` issues: POST to `compile.json` with
`data=json.dumps(params)` and the JSON headers. -/
def compileRequest (code : String) (codes : List Json) (compiler : String)
    (compiler_option_raw : Json) (options : String) (runtime_option_raw : Json)
    (save : Json) (stdin : String) : Request :=
  ⟨.post, urlFormat "compile.json", some jsonHeaders,
   some (compileParams code codes compiler compiler_option_raw options
      runtime_option_raw save stdin), none⟩

/-- The request `Wandbox.compile_nd` issues: POST to `compile.ndjson` with
`data=json.dumps(params)` and the ND-JSON headers. -/
def compile_ndRequest (code : String) (codes : List Json) (compiler : String)
    (compiler_option_raw : Json) (options : String) (runtime_option_raw : Json)
    (stdin : String) : Request :=
  ⟨.post, urlFormat "compile.ndjson", some ndjsonHeaders,
   some (compile_ndParams code codes compiler compiler_option_raw options
      runtime_option_raw stdin), none⟩

/-- The request `Wandbox.post_permlink` issues: POST to `permlink` with
`params=json.dumps(params)` (query-style, not a body) and no headers. -/
def post_permlinkRequest (code : String) (codes : List Json) (compiler : String)
    (compiler_option_raw : Json) (options : String) (results : List Json)
    (runtime_option_raw : Json) (stdin : String) : Request :=
  ⟨.post, urlFormat "permlink", none, none,
   some (post_permlinkParams code codes compiler compiler_option_raw options
      results runtime_option_raw stdin)⟩

/-! ## Endpoint response handling

Each endpoint method awaits `_get`/`_post`, which raises for a bad status and
otherwise decodes; `get_template` post-processes the decoded value.  The
`...Recv` functions are the response-to-result path of each method, with the
URL that the error would carry. -/

/-- `return code['code'] if isinstance(code, dict) else code`, the tail of
`Wandbox.get_template` (source line 193).  `none` models the `KeyError`
raised when a decoded dict has no `'code'` key. -/
def template_unwrap (code : Json) : Option Json :=
  match code with
  | .obj kvs => lookupKey kvs "code"
  | j => some j

/-- Response handling of `Wandbox.compilers`. -/
def compilersRecv (jdecode : String → Option Json) (r : HttpResponse) :
    Except ClientResponseError (Option Json) :=
  handle jdecode (urlFormat "list.json") r

/-- Response handling of `Wandbox.get_permlink`. -/
def get_permlinkRecv (jdecode : String → Option Json) (link : String)
    (r : HttpResponse) : Except ClientResponseError (Option Json) :=
  handle jdecode (urlFormat ("permlink/" ++ link)) r

/-- Response handling of `Wandbox.get_template`: decode, then unwrap the
`{code: ...}` envelope when the decoded value is a dict. -/
def get_templateRecv (jdecode : String → Option Json) (name : String)
    (r : HttpResponse) : Except ClientResponseError (Option Json) :=
  (handle jdecode (urlFormat ("template/" ++ name)) r).map
    (fun decoded => decoded.bind template_unwrap)

/-- Response handling of `Wandbox.get_user`. -/
def get_userRecv (jdecode : String → Option Json) (r : HttpResponse) :
    Except ClientResponseError (Option Json) :=
  handle jdecode (urlFormat "url.json") r

/-- Response handling of `Wandbox.compile`. -/
def compileRecv (jdecode : String → Option Json) (r : HttpResponse) :
    Except ClientResponseError (Option Json) :=
  handle jdecode (urlFormat "compile.json") r

/-- Response handling of `Wandbox.compile_nd`. -/
def compile_ndRecv (jdecode : String → Option Json) (r : HttpResponse) :
    Except ClientResponseError (Option Json) :=
  handle jdecode (urlFormat "compile.ndjson") r

/-- Response handling of `Wandbox.post_permlink`. -/
def post_permlinkRecv (jdecode : String → Option Json) (r : HttpResponse) :
    Except ClientResponseError (Option Json) :=
  handle jdecode (urlFormat "permlink") r

/-! ## Connection lifecycle

`Wandbox` instances hold `self.session` (an `aiohttp.ClientSession`, `None`
before assignment) and share the class-level list `Wandbox.active`.  We model
the process state as the list of instances created so far (an instance is
named by its creation index) plus the `active` list, and each method as a
state transformer. -/

/-- An `aiohttp.ClientSession`: all the client reads from it is whether it is
closed. -/
structure Session where
  closed : Bool
deriving Repr, DecidableEq

/-- One `Wandbox` instance: its `self.session` attribute (`none` is Python's
`None`). -/
structure Instance where
  session : Option Session
deriving Repr, DecidableEq

/-- Process-wide state: every instance constructed so far (indexed by
creation order) and the class attribute `Wandbox.active`, a list of
instance indices. -/
structure World where
  instances : List Instance
  active : List Nat
deriving Repr, DecidableEq

/-- The state before any instance is constructed: `Wandbox.active = []`. -/
def World.emptyWorld : World := ⟨[], []⟩

/-- `self.session` of instance `i`, or `none` when `i` names no instance. -/
def sessionOf (w : World) (i : Nat) : Option Session :=
  (w.instances.get? i).bind Instance.session

/-- Overwrite `self.session` of instance `i` (no-op on an invalid index, as
`List.set` is). -/
def setSession (w : World) (i : Nat) (s : Option Session) : World :=
  { w with instances := w.instances.set i ⟨s⟩ }

/-- `Wandbox.connect` (source lines 21–34):
if `self.session is None`, create a fresh open session and append `self` to
`Wandbox.active`; otherwise reopen the session if it is closed, and append
`self` to `Wandbox.active` if it is not already there.  On an index naming
no instance the state is unchanged (no call site produces one). -/
def connect (w : World) (i : Nat) : World :=
  match (w.instances.get? i).bind Instance.session with
  | none =>
    match w.instances.get? i with
    | none => w
    | some _ =>
      let w1 := setSession w i (some ⟨false⟩)
      { w1 with active := w1.active ++ [i] }
  | some s =>
    let w1 := if s.closed then setSession w i (some ⟨false⟩) else w
    if i ∈ w1.active then w1 else { w1 with active := w1.active ++ [i] }

/-- `Wandbox.close` (source lines 36–44):
if `self.session is not None and not self.session.closed`, close the session
and `Wandbox.active.remove(self)` (removal of the first occurrence;
`List.erase` also no-ops on a missing element where Python would raise
`ValueError` — `closeInactiveUnreachable` below shows that state never arises
from the API).  Otherwise nothing happens. -/
def close (w : World) (i : Nat) : World :=
  match (w.instances.get? i).bind Instance.session with
  | some s =>
    if s.closed then w
    else
      let w1 := setSession w i (some ⟨true⟩)
      { w1 with active := w1.active.erase i }
  | none => w

/-- `Wandbox.__init__` (source lines 13–19): allocate a new instance with
`self.session = None`, then call `self.connect()`.  Returns the new state and
the new instance's index. -/
def init (w : World) : World × Nat :=
  let i := w.instances.length
  let w1 : World := { w with instances := w.instances ++ [⟨none⟩] }
  (connect w1 i, i)

/-- One step of the public lifecycle API: construct an instance, or call
`connect()`/`close()` on an existing one. -/
inductive Op where
  | mkInstance : Op
  | opConnect : Nat → Op
  | opClose : Nat → Op
deriving Repr, DecidableEq

/-- Apply one lifecycle call to the process state. -/
def step (w : World) (op : Op) : World :=
  match op with
  | .mkInstance => (init w).1
  | .opConnect i => connect w i
  | .opClose i => close w i

/-- Run a sequence of constructor/`connect`/`close` calls from the initial
process state. -/
def run (ops : List Op) : World :=
  ops.foldl step World.emptyWorld

end Wandbox

open Wandbox

/-! ## Lifecycle helper lemmas -/

lemma sessionOf_setSession_self (w : World) (i : Nat) (s : Option Session)
    (h : i < w.instances.length) :
    sessionOf (setSession w i s) i = s := by
  show ((w.instances.set i ⟨s⟩).get? i).bind Instance.session = s
  rw [List.get?_set_eq_of_lt _ h]
  rfl

lemma sessionOf_setSession_ne (w : World) (i j : Nat) (s : Option Session)
    (h : i ≠ j) :
    sessionOf (setSession w i s) j = sessionOf w j := by
  show ((w.instances.set i ⟨s⟩).get? j).bind Instance.session = _
  rw [List.get?_set_ne _ _ h]
  rfl

lemma active_setSession (w : World) (i : Nat) (s : Option Session) :
    (setSession w i s).active = w.active := rfl

lemma connect_invalid (w : World) (i : Nat)
    (h : w.instances.get? i = none) : connect w i = w := by
  unfold connect
  rw [h]
  rfl

lemma connect_of_session_none (w : World) (i : Nat) (inst : Instance)
    (hget : w.instances.get? i = some inst) (hs : inst.session = none) :
    connect w i =
      { setSession w i (some ⟨false⟩) with active := w.active ++ [i] } := by
  unfold connect
  rw [hget]
  simp only [Option.some_bind, hs]
  rfl

lemma connect_of_session_some (w : World) (i : Nat) (inst : Instance)
    (s : Session) (hget : w.instances.get? i = some inst)
    (hs : inst.session = some s) :
    connect w i =
      (let w1 := if s.closed then setSession w i (some ⟨false⟩) else w
       if i ∈ w1.active then w1 else { w1 with active := w1.active ++ [i] }) := by
  unfold connect
  rw [hget]
  simp only [Option.some_bind, hs]

lemma close_of_invalid_or_none (w : World) (i : Nat)
    (h : sessionOf w i = none) : close w i = w := by
  unfold close
  unfold sessionOf at h
  rw [h]

lemma close_of_closed (w : World) (i : Nat)
    (h : sessionOf w i = some ⟨true⟩) : close w i = w := by
  unfold close
  unfold sessionOf at h
  rw [h]
  rfl

lemma close_of_open (w : World) (i : Nat)
    (h : sessionOf w i = some ⟨false⟩) :
    close w i =
      { setSession w i (some ⟨true⟩) with active := w.active.erase i } := by
  unfold close
  unfold sessionOf at h
  rw [h]
  rfl

/-- After `connect` on an existing instance, its session is open and it is
registered active. -/
lemma connect_opens (w : World) (i : Nat) (h : i < w.instances.length) :
    sessionOf (connect w i) i = some ⟨false⟩ ∧ i ∈ (connect w i).active := by
  obtain ⟨inst, hget⟩ : ∃ inst, w.instances.get? i = some inst :=
    ⟨w.instances.get ⟨i, h⟩, List.get?_eq_get h⟩
  cases hs : inst.session with
  | none =>
    rw [connect_of_session_none w i inst hget hs]
    refine ⟨?_, ?_⟩
    · show sessionOf (setSession w i (some ⟨false⟩)) i = some ⟨false⟩
      exact sessionOf_setSession_self w i _ h
    · show i ∈ w.active ++ [i]
      simp
  | some s =>
    have hw : sessionOf w i = some s := by
      unfold sessionOf
      rw [hget, Option.some_bind, hs]
    rw [connect_of_session_some w i inst s hget hs]
    obtain ⟨closed⟩ := s
    cases closed with
    | false =>
      simp only [Bool.false_eq_true, if_false]
      by_cases hm : i ∈ w.active
      · rw [if_pos hm]
        exact ⟨hw, hm⟩
      · rw [if_neg hm]
        exact ⟨hw, by show i ∈ w.active ++ [i]; simp⟩
    | true =>
      simp only [if_true]
      have hsess : sessionOf (setSession w i (some ⟨false⟩)) i = some ⟨false⟩ :=
        sessionOf_setSession_self w i _ h
      by_cases hm : i ∈ (setSession w i (some ⟨false⟩)).active
      · rw [if_pos hm]
        exact ⟨hsess, hm⟩
      · rw [if_neg hm]
        refine ⟨hsess, ?_⟩
        show i ∈ (setSession w i (some ⟨false⟩)).active ++ [i]
        simp

lemma sessionOf_withActive (w : World) (a : List Nat) (i : Nat) :
    sessionOf { w with active := a } i = sessionOf w i := rfl

lemma lt_length_of_sessionOf_some (w : World) (i : Nat) (s : Session)
    (h : sessionOf w i = some s) : i < w.instances.length := by
  by_contra hlt
  unfold sessionOf at h
  rw [List.get?_eq_none.mpr (Nat.le_of_not_lt hlt)] at h
  simp at h

/-- A second `connect` on an instance whose session is already open and which
is already registered changes nothing. -/
lemma connect_of_open_mem (w : World) (i : Nat)
    (hs : sessionOf w i = some ⟨false⟩) (hm : i ∈ w.active) :
    connect w i = w := by
  obtain ⟨inst, hget, hinst⟩ :
      ∃ inst, w.instances.get? i = some inst ∧ inst.session = some ⟨false⟩ := by
    unfold sessionOf at hs
    cases hg : w.instances.get? i with
    | none => rw [hg] at hs; simp at hs
    | some inst =>
      rw [hg, Option.some_bind] at hs
      exact ⟨inst, rfl, hs⟩
  rw [connect_of_session_some w i inst ⟨false⟩ hget hinst]
  simp only [Bool.false_eq_true, if_false]
  rw [if_pos hm]

/-! ## Reachable-state invariant of the active registry -/

/-- Invariant of the process state maintained by `__init__`/`connect`/`close`:
the registry has no duplicates, every registered instance has created a
session, and every instance with an open session is registered. -/
def Inv (w : World) : Prop :=
  w.active.Nodup ∧
  (∀ i ∈ w.active, ∃ s, sessionOf w i = some s) ∧
  (∀ i, sessionOf w i = some ⟨false⟩ → i ∈ w.active)

lemma inv_empty : Inv World.emptyWorld := by
  refine ⟨List.nodup_nil, ?_, ?_⟩
  · intro i hi
    simp [World.emptyWorld] at hi
  · intro i hi
    have : sessionOf World.emptyWorld i = none := by
      unfold sessionOf World.emptyWorld
      simp
    rw [this] at hi
    cases hi

lemma sessionOf_extend (w : World) (i : Nat) :
    sessionOf { w with instances := w.instances ++ [(⟨none⟩ : Instance)] } i =
      if i < w.instances.length then sessionOf w i else none := by
  by_cases h : i < w.instances.length
  · rw [if_pos h]
    show ((w.instances ++ [(⟨none⟩ : Instance)]).get? i).bind _ = _
    rw [List.get?_append h]
    rfl
  · rw [if_neg h]
    rcases Nat.lt_or_ge i (w.instances.length + 1) with h1 | h1
    · have hi : i = w.instances.length := by omega
      subst hi
      show ((w.instances ++ [(⟨none⟩ : Instance)]).get? w.instances.length).bind _ = _
      rw [List.get?_concat_length]
      rfl
    · show ((w.instances ++ [(⟨none⟩ : Instance)]).get? i).bind _ = _
      rw [List.get?_eq_none.mpr (by simp; omega)]
      rfl

/-- Allocating a fresh instance (`self.session = None`, before `connect`)
preserves the invariant. -/
lemma inv_extend (w : World) (hw : Inv w) :
    Inv { w with instances := w.instances ++ [(⟨none⟩ : Instance)] } := by
  obtain ⟨hnd, hmemsome, hopen⟩ := hw
  refine ⟨hnd, ?_, ?_⟩
  · intro i hi
    obtain ⟨s, hs⟩ := hmemsome i hi
    refine ⟨s, ?_⟩
    rw [sessionOf_extend, if_pos (lt_length_of_sessionOf_some w i s hs)]
    exact hs
  · intro i hi
    rw [sessionOf_extend] at hi
    by_cases h : i < w.instances.length
    · rw [if_pos h] at hi
      exact hopen i hi
    · rw [if_neg h] at hi
      cases hi

/-- The `if self not in Wandbox.active: Wandbox.active.append(self)` step of
`connect` preserves the invariant, given that instance `i` has a session. -/
lemma inv_ensureActive (w1 : World) (i : Nat) (h1 : w1.active.Nodup)
    (h2 : ∀ j ∈ w1.active, ∃ s, sessionOf w1 j = some s)
    (h3 : ∀ j, j ≠ i → sessionOf w1 j = some ⟨false⟩ → j ∈ w1.active)
    (h4 : ∃ s, sessionOf w1 i = some s) :
    Inv (if i ∈ w1.active then w1
         else { w1 with active := w1.active ++ [i] }) := by
  by_cases hm : i ∈ w1.active
  · rw [if_pos hm]
    refine ⟨h1, h2, ?_⟩
    intro j hj
    by_cases hij : j = i
    · subst hij
      exact hm
    · exact h3 j hij hj
  · rw [if_neg hm]
    refine ⟨?_, ?_, ?_⟩
    · show (w1.active ++ [i]).Nodup
      simp [List.nodup_append, h1, hm]
    · intro j hj
      rw [sessionOf_withActive]
      rcases List.mem_append.mp hj with hj | hj
      · exact h2 j hj
      · simp only [List.mem_singleton] at hj
        subst hj
        exact h4
    · intro j hjs
      rw [sessionOf_withActive] at hjs
      by_cases hij : j = i
      · subst hij
        exact List.mem_append_right _ (by simp)
      · exact List.mem_append_left _ (h3 j hij hjs)

/-- `connect` preserves the invariant. -/
lemma inv_connect (w : World) (i : Nat) (hw : Inv w) : Inv (connect w i) := by
  obtain ⟨hnd, hmemsome, hopen⟩ := hw
  cases hg : w.instances.get? i with
  | none =>
    rw [connect_invalid w i hg]
    exact ⟨hnd, hmemsome, hopen⟩
  | some inst =>
    have hlt : i < w.instances.length := by
      by_contra hlt
      rw [List.get?_eq_none.mpr (Nat.le_of_not_lt hlt)] at hg
      cases hg
    cases hs : inst.session with
    | none =>
      rw [connect_of_session_none w i inst hg hs]
      have hnotmem : i ∉ w.active := by
        intro hm
        obtain ⟨s, hss⟩ := hmemsome i hm
        unfold sessionOf at hss
        rw [hg, Option.some_bind, hs] at hss
        cases hss
      refine ⟨?_, ?_, ?_⟩
      · show (w.active ++ [i]).Nodup
        simp [List.nodup_append, hnd, hnotmem]
      · intro j hj
        rw [sessionOf_withActive]
        rcases List.mem_append.mp hj with hj | hj
        · have hji : j ≠ i := fun he => hnotmem (he ▸ hj)
          rw [sessionOf_setSession_ne w i j _ (Ne.symm hji)]
          exact hmemsome j hj
        · simp only [List.mem_singleton] at hj
          subst hj
          exact ⟨⟨false⟩, sessionOf_setSession_self w j _ hlt⟩
      · intro j hjs
        rw [sessionOf_withActive] at hjs
        by_cases hij : j = i
        · subst hij
          exact List.mem_append_right _ (by simp)
        · rw [sessionOf_setSession_ne w i j _ (Ne.symm hij)] at hjs
          exact List.mem_append_left _ (hopen j hjs)
    | some s =>
      rw [connect_of_session_some w i inst s hg hs]
      obtain ⟨closed⟩ := s
      cases closed with
      | false =>
        simp only [Bool.false_eq_true, if_false]
        refine inv_ensureActive w i hnd hmemsome
          (fun j _ hjs => hopen j hjs) ⟨⟨false⟩, ?_⟩
        unfold sessionOf
        rw [hg, Option.some_bind]
        exact hs
      | true =>
        simp only [if_true]
        refine inv_ensureActive (setSession w i (some ⟨false⟩)) i ?_ ?_ ?_ ?_
        · show w.active.Nodup
          exact hnd
        · intro j hj
          by_cases hij : j = i
          · subst hij
            exact ⟨⟨false⟩, sessionOf_setSession_self w j _ hlt⟩
          · rw [sessionOf_setSession_ne w i j _ (Ne.symm hij)]
            exact hmemsome j hj
        · intro j hij hjs
          rw [sessionOf_setSession_ne w i j _ (Ne.symm hij)] at hjs
          exact hopen j hjs
        · exact ⟨⟨false⟩, sessionOf_setSession_self w i _ hlt⟩

/-- `close` preserves the invariant. -/
lemma inv_close (w : World) (i : Nat) (hw : Inv w) : Inv (close w i) := by
  obtain ⟨hnd, hmemsome, hopen⟩ := hw
  cases hso : sessionOf w i with
  | none =>
    rw [close_of_invalid_or_none w i hso]
    exact ⟨hnd, hmemsome, hopen⟩
  | some s =>
    obtain ⟨closed⟩ := s
    cases closed with
    | true =>
      rw [close_of_closed w i hso]
      exact ⟨hnd, hmemsome, hopen⟩
    | false =>
      have hlt := lt_length_of_sessionOf_some w i _ hso
      rw [close_of_open w i hso]
      refine ⟨?_, ?_, ?_⟩
      · show (w.active.erase i).Nodup
        exact hnd.erase i
      · intro j hj
        have hj' : j ∈ w.active := List.mem_of_mem_erase hj
        rw [sessionOf_withActive]
        by_cases hij : j = i
        · subst hij
          exact ⟨⟨true⟩, sessionOf_setSession_self w j _ hlt⟩
        · rw [sessionOf_setSession_ne w i j _ (Ne.symm hij)]
          exact hmemsome j hj'
      · intro j hjs
        rw [sessionOf_withActive] at hjs
        by_cases hij : j = i
        · subst hij
          rw [sessionOf_setSession_self w j _ hlt] at hjs
          cases hjs
        · rw [sessionOf_setSession_ne w i j _ (Ne.symm hij)] at hjs
          exact (List.mem_erase_of_ne hij).mpr (hopen j hjs)

lemma inv_step (w : World) (op : Op) (hw : Inv w) : Inv (step w op) := by
  cases op with
  | mkInstance =>
    show Inv (connect { w with instances := w.instances ++ [⟨none⟩] }
      w.instances.length)
    exact inv_connect _ _ (inv_extend w hw)
  | opConnect i => exact inv_connect w i hw
  | opClose i => exact inv_close w i hw

/-- Every state reachable through the public lifecycle API satisfies the
registry invariant. -/
lemma inv_run (ops : List Op) : Inv (run ops) := by
  suffices h : ∀ w : World, Inv w → Inv (ops.foldl step w) from
    h World.emptyWorld inv_empty
  induction ops with
  | nil => intro w hw; exact hw
  | cons op ops ih =>
    intro w hw
    exact ih (step w op) (inv_step w op hw)

/-- In every reachable state, an instance holding an open session is in the
active registry; hence `Wandbox.active.remove(self)` inside `close` (which
runs only when the session is open) always finds its element and never
raises `ValueError`. -/
lemma closeInactiveUnreachable (ops : List Op) (i : Nat)
    (h : sessionOf (run ops) i = some ⟨false⟩) : i ∈ (run ops).active :=
  (inv_run ops).2.2 i h

/-! ## Theorems -/

/-- C6: For every request-bearing method (`compile`, `compile_nd`,
`post_permlink`), the underscore-named parameters `compiler_option_raw` and
`runtime_option_raw` are serialized under the hyphenated wire keys
`compiler-option-raw` and `runtime-option-raw`, identically across all three
methods (the underscore spellings never appear as keys), and the value
`False` is serialized as JSON `false` under the hyphenated key. -/
theorem compile_params_use_hyphenated_keys
    (code : String) (codes : List Json) (compiler : String)
    (cor : Json) (options : String) (results : List Json) (ror : Json)
    (save : Json) (stdin : String) :
    ((compileParams code codes compiler cor options ror save stdin).map
        Prod.fst =
      ["code", "codes", "compiler", "compiler-option-raw", "options",
       "runtime-option-raw", "save", "stdin"]) ∧
    ((compile_ndParams code codes compiler cor options ror stdin).map
        Prod.fst =
      ["code", "codes", "compiler", "compiler-option-raw", "options",
       "runtime-option-raw", "stdin"]) ∧
    ((post_permlinkParams code codes compiler cor options results ror
          stdin).map Prod.fst =
      ["code", "codes", "compiler", "compiler-option-raw", "options",
       "results", "runtime-option-raw", "stdin"]) ∧
    (lookupKey (compileParams code codes compiler cor options ror save stdin)
        "compiler-option-raw" = some cor) ∧
    (lookupKey (compileParams code codes compiler cor options ror save stdin)
        "runtime-option-raw" = some ror) ∧
    (lookupKey (compile_ndParams code codes compiler cor options ror stdin)
        "compiler-option-raw" = some cor) ∧
    (lookupKey (compile_ndParams code codes compiler cor options ror stdin)
        "runtime-option-raw" = some ror) ∧
    (lookupKey (post_permlinkParams code codes compiler cor options results
        ror stdin) "compiler-option-raw" = some cor) ∧
    (lookupKey (post_permlinkParams code codes compiler cor options results
        ror stdin) "runtime-option-raw" = some ror) ∧
    (lookupKey (compileParams code codes compiler (.bool false) options ror
        save stdin) "compiler-option-raw" = some (.bool false)) ∧
    (lookupKey (compileParams code codes compiler cor options ror save stdin)
        "compiler_option_raw" = none) ∧
    (lookupKey (compileParams code codes compiler cor options ror save stdin)
        "runtime_option_raw" = none) ∧
    (lookupKey (compile_ndParams code codes compiler cor options ror stdin)
        "compiler_option_raw" = none) ∧
    (lookupKey (post_permlinkParams code codes compiler cor options results
        ror stdin) "compiler_option_raw" = none) := by
  refine ⟨rfl, rfl, rfl, ?_⟩
  simp [compileParams, compile_ndParams, post_permlinkParams, lookupKey]

/-- C7 counterexample: constructing a client instance immediately creates an
open transport handle — after `Wandbox()` on a fresh process state, the new
instance's `session` is an open `ClientSession` (because `__init__` calls
`self.connect()`), refuting lazy creation. -/
theorem construct_creates_open_session :
    sessionOf (init World.emptyWorld).1 (init World.emptyWorld).2 =
      some ⟨false⟩ ∧
    (init World.emptyWorld).2 ∈ (init World.emptyWorld).1.active := by
  exact ⟨rfl, by decide⟩

/-- C7 amended: constructing a client instance eagerly creates its transport
handle: from any process state, `__init__` leaves the new instance with an
open session and registers it in the active registry. -/
theorem construct_connects_immediately (w : World) :
    sessionOf (init w).1 (init w).2 = some ⟨false⟩ ∧
    (init w).2 ∈ (init w).1.active := by
  have h : w.instances.length <
      ({ w with instances := w.instances ++ [(⟨none⟩ : Instance)]} :
        World).instances.length := by
    simp
  exact connect_opens { w with instances := w.instances ++ [⟨none⟩] }
    w.instances.length h

/-- C8 counterexample: the permalink-fetch method sends no headers at all —
`get_permlink` passes no `headers=` argument to the transport, so its request
does not carry `Content-type: application/json` / `Accept: text/plain`,
refuting the claim that every standard JSON endpoint method does. -/
theorem get_permlink_sends_no_headers :
    (get_permlinkRequest "abc").headers = none := rfl

/-- C8 amended: `compilers` and `compile` send
`Content-type: application/json` / `Accept: text/plain`; the streaming
`compile_nd` sends `Content-type: application/x-ndjson` (with
`Accept: text/plain`); `get_permlink`, `get_template`, `get_user` and
`post_permlink` pass no headers. -/
theorem endpoint_request_headers
    (link name session code : String) (codes : List Json) (compiler : String)
    (cor : Json) (options : String) (results : List Json) (ror : Json)
    (save : Json) (stdin : String) :
    compilersRequest.headers =
      some [("Content-type", "application/json"),
            ("Accept", "text/plain")] ∧
    (compileRequest code codes compiler cor options ror save stdin).headers =
      some [("Content-type", "application/json"),
            ("Accept", "text/plain")] ∧
    (compile_ndRequest code codes compiler cor options ror stdin).headers =
      some [("Content-type", "application/x-ndjson"),
            ("Accept", "text/plain")] ∧
    (get_permlinkRequest link).headers = none ∧
    (get_templateRequest name).headers = none ∧
    (get_userRequest session).headers = none ∧
    (post_permlinkRequest code codes compiler cor options results ror
        stdin).headers = none :=
  ⟨rfl, rfl, rfl, rfl, rfl, rfl, rfl⟩

/-- Successful `mapM` over `Option` maps each element in place: the output
has one entry per input, the image of that input, in the same position. -/
lemma mapM_option_spec {α β : Type} (f : α → Option β) :
    ∀ (l : List α) (vs : List β), l.mapM f = some vs →
      vs.length = l.length ∧
      ∀ k, k < l.length → vs.get? k = (l.get? k).bind f := by
  intro l
  induction l with
  | nil =>
    intro vs h
    rw [List.mapM_nil] at h
    cases h
    exact ⟨rfl, fun k hk => absurd hk (by simp)⟩
  | cons a l ih =>
    intro vs h
    rw [List.mapM_cons] at h
    cases hfa : f a with
    | none =>
      rw [hfa] at h
      simp at h
    | some b =>
      rw [hfa] at h
      simp only [Option.pure_def, Option.bind_eq_bind, Option.some_bind] at h
      cases hml : l.mapM f with
      | none =>
        rw [hml] at h
        simp at h
      | some bs =>
        rw [hml] at h
        simp only [Option.some_bind, Option.some.injEq] at h
        subst h
        obtain ⟨hlen, hnth⟩ := ih bs hml
        refine ⟨by simp [hlen], ?_⟩
        intro k hk
        cases k with
        | zero => simp [hfa]
        | succ k' =>
          simpa using hnth k' (by simpa using hk)

/-- C1: the decoder is selected solely by the response's declared content
type.  A response declaring `application/x-ndjson` is decoded line by line:
the result (when every line decodes) is the ordered sequence with exactly one
JSON value per non-blank input line, the `k`-th output being the decode of
the `k`-th line.  A response declaring any other content type (the default
being `application/json`) is decoded by applying the single-document JSON
decoder to the whole body, yielding exactly one JSON value. -/
theorem decode_selected_by_content_type
    (jdecode : String → Option Json) (r : HttpResponse) :
    (r.content_type = "application/x-ndjson" →
      parse_response jdecode r =
        ((nonblankLines r.body).mapM jdecode).map Json.arr ∧
      ∀ vs : List Json, (nonblankLines r.body).mapM jdecode = some vs →
        parse_response jdecode r = some (.arr vs) ∧
        vs.length = (nonblankLines r.body).length ∧
        ∀ k, k < (nonblankLines r.body).length →
          vs.get? k = ((nonblankLines r.body).get? k).bind jdecode) ∧
    (r.content_type ≠ "application/x-ndjson" →
      parse_response jdecode r = jdecode r.body) := by
  constructor
  · intro hct
    have hp : parse_response jdecode r = ndjsonDecode jdecode r.body := by
      unfold parse_response
      rw [if_pos hct]
    refine ⟨hp, ?_⟩
    intro vs hvs
    obtain ⟨hlen, hnth⟩ := mapM_option_spec jdecode (nonblankLines r.body) vs hvs
    refine ⟨?_, hlen, hnth⟩
    rw [hp]
    unfold ndjsonDecode
    rw [hvs]
    rfl
  · intro hct
    unfold parse_response
    rw [if_neg hct]

/-- Witness for C1: an ND-JSON body of two lines decodes to the two-element
sequence in arrival order; the same body under `application/json` decodes as
one value. -/
theorem decode_selected_by_content_type_witness :
    parse_response (fun s => some (.str s))
      ⟨200, "application/x-ndjson", "a\nb"⟩ =
      some (.arr [.str "a", .str "b"]) ∧
    parse_response (fun s => some (.str s))
      ⟨200, "application/json", "a\nb"⟩ = some (.str "a\nb") := by
  constructor
  · exact (((decode_selected_by_content_type (fun s => some (.str s))
      ⟨200, "application/x-ndjson", "a\nb"⟩).1 rfl).2
        [.str "a", .str "b"] rfl).1
  · exact (decode_selected_by_content_type (fun s => some (.str s))
      ⟨200, "application/json", "a\nb"⟩).2 (by decide)

/-- C2 counterexample: a response with the non-2xx status 304 does NOT make
an endpoint method raise — `raise_for_status` only raises for status ≥ 400,
so here `compilers` decodes the body and returns it, refuting the claim that
every non-2xx status raises and that the body is never decoded then. -/
theorem status_304_returns_decoded_body :
    compilersRecv (fun s => some (.str s))
      ⟨304, "application/json", "resp"⟩ = .ok (some (.str "resp")) := rfl

/-- C2 amended: for every endpoint method and every response with a 4xx/5xx
status (status ≥ 400, where aiohttp's `raise_for_status` raises), the method
raises a `ClientResponseError` carrying the status code and the request URL
and returns no value; the body is never decoded in that case (the error is
determined by status and URL alone), and the error propagates unchanged —
no endpoint method catches or retries. -/
theorem endpoints_raise_on_4xx_5xx (jdecode : String → Option Json)
    (link name : String) (r : HttpResponse) (h : 400 ≤ r.status) :
    compilersRecv jdecode r = .error ⟨r.status, urlFormat "list.json"⟩ ∧
    get_permlinkRecv jdecode link r =
      .error ⟨r.status, urlFormat ("permlink/" ++ link)⟩ ∧
    get_templateRecv jdecode name r =
      .error ⟨r.status, urlFormat ("template/" ++ name)⟩ ∧
    get_userRecv jdecode r = .error ⟨r.status, urlFormat "url.json"⟩ ∧
    compileRecv jdecode r = .error ⟨r.status, urlFormat "compile.json"⟩ ∧
    compile_ndRecv jdecode r =
      .error ⟨r.status, urlFormat "compile.ndjson"⟩ ∧
    post_permlinkRecv jdecode r = .error ⟨r.status, urlFormat "permlink"⟩ := by
  have hh : ∀ url, handle jdecode url r = .error ⟨r.status, url⟩ := by
    intro url
    unfold handle
    rw [if_pos h]
  refine ⟨hh _, hh _, ?_, hh _, hh _, hh _, hh _⟩
  unfold get_templateRecv
  rw [hh]
  rfl

/-- Witness for C2 (amended): a 404 response to the compiler-list request
raises the error carrying 404 and the list URL. -/
theorem endpoints_raise_on_4xx_5xx_witness :
    compilersRecv (fun s => some (.str s)) ⟨404, "application/json", "x"⟩ =
      .error ⟨404, urlFormat "list.json"⟩ :=
  (endpoints_raise_on_4xx_5xx (fun s => some (.str s)) "lnk" "gcc"
    ⟨404, "application/json", "x"⟩ (by decide)).1

/-- C5: `get_template` unwraps a `{code: ...}` envelope: when the decoded
value is a dict it returns the value stored under its `code` key, otherwise
it returns the decoded value itself — so both the envelope
`{"code": "hello"}` and the bare string `"hello"` yield `"hello"`, also
through the full response path of the method. -/
theorem get_template_unwraps_code_envelope :
    (∀ kvs : List (String × Json),
      template_unwrap (.obj kvs) = lookupKey kvs "code") ∧
    (∀ j : Json, j.isObj = false → template_unwrap j = some j) ∧
    template_unwrap (.obj [("code", .str "hello")]) = some (.str "hello") ∧
    template_unwrap (.str "hello") = some (.str "hello") ∧
    (∀ (jdecode : String → Option Json) (name : String) (r : HttpResponse),
      r.status < 400 → r.content_type ≠ "application/x-ndjson" →
      jdecode r.body = some (.obj [("code", .str "hello")]) →
      get_templateRecv jdecode name r = .ok (some (.str "hello"))) ∧
    (∀ (jdecode : String → Option Json) (name : String) (r : HttpResponse),
      r.status < 400 → r.content_type ≠ "application/x-ndjson" →
      jdecode r.body = some (.str "hello") →
      get_templateRecv jdecode name r = .ok (some (.str "hello"))) := by
  have hobj : ∀ j : Json, j.isObj = false → template_unwrap j = some j := by
    intro j hj
    cases j with
    | obj kvs => simp [Json.isObj] at hj
    | null => rfl
    | bool b => rfl
    | num n => rfl
    | str s => rfl
    | arr a => rfl
  have hpath : ∀ (jdecode : String → Option Json) (name : String)
      (r : HttpResponse) (v : Json), r.status < 400 →
      r.content_type ≠ "application/x-ndjson" → jdecode r.body = some v →
      get_templateRecv jdecode name r = .ok (template_unwrap v) := by
    intro jdecode name r v hst hct hbody
    have hp : parse_response jdecode r = jdecode r.body := by
      unfold parse_response
      rw [if_neg hct]
    unfold get_templateRecv handle
    rw [if_neg (by omega)]
    rw [hp, hbody]
    rfl
  refine ⟨fun kvs => rfl, hobj, rfl, rfl, ?_, ?_⟩
  · intro jdecode name r hst hct hbody
    rw [hpath jdecode name r _ hst hct hbody]
    rfl
  · intro jdecode name r hst hct hbody
    rw [hpath jdecode name r _ hst hct hbody]
    rfl

/-- Witness for C5: a 200 response whose body decodes to
`{"code": "hello"}` makes `get_template` return `"hello"`, and one decoding
to the bare `"hello"` returns `"hello"` as well. -/
theorem get_template_unwraps_code_envelope_witness :
    get_templateRecv (fun _ => some (.obj [("code", .str "hello")])) "gcc"
      ⟨200, "application/json", "body"⟩ = .ok (some (.str "hello")) ∧
    get_templateRecv (fun _ => some (.str "hello")) "gcc"
      ⟨200, "application/json", "body"⟩ = .ok (some (.str "hello")) :=
  ⟨get_template_unwraps_code_envelope.2.2.2.2.1
      (fun _ => some (.obj [("code", .str "hello")])) "gcc"
      ⟨200, "application/json", "body"⟩ (by decide) (by decide) rfl,
   get_template_unwraps_code_envelope.2.2.2.2.2
      (fun _ => some (.str "hello")) "gcc"
      ⟨200, "application/json", "body"⟩ (by decide) (by decide) rfl⟩

/-- C3: calling `connect()` twice in a row without an intervening `close()`
is idempotent: the second call leaves the whole process state unchanged — in
particular it creates no second transport (the instance still holds exactly
the one open session the first call ensured) and does not change the
instance's number of occurrences in the active registry. -/
theorem connect_twice_idempotent (w : World) (i : Nat) :
    connect (connect w i) i = connect w i ∧
    (i < w.instances.length →
      sessionOf (connect (connect w i) i) i = some ⟨false⟩ ∧
      (connect (connect w i) i).active.count i =
        (connect w i).active.count i) := by
  by_cases h : i < w.instances.length
  · have ho := connect_opens w i h
    have heq : connect (connect w i) i = connect w i :=
      connect_of_open_mem _ i ho.1 ho.2
    refine ⟨heq, fun _ => ⟨?_, by rw [heq]⟩⟩
    rw [heq]
    exact ho.1
  · have hg : w.instances.get? i = none :=
      List.get?_eq_none.mpr (Nat.le_of_not_lt h)
    have h1 : connect w i = w := connect_invalid w i hg
    rw [h1]
    exact ⟨h1, fun hlt => absurd hlt h⟩

/-- Witness for C3: on the one-instance state, a second `connect` of
instance 0 changes nothing and the single open session persists. -/
theorem connect_twice_idempotent_witness :
    connect (connect (init World.emptyWorld).1 0) 0 =
      connect (init World.emptyWorld).1 0 ∧
    sessionOf (connect (connect (init World.emptyWorld).1 0) 0) 0 =
      some ⟨false⟩ :=
  ⟨(connect_twice_idempotent (init World.emptyWorld).1 0).1,
   ((connect_twice_idempotent (init World.emptyWorld).1 0).2 (by decide)).1⟩

/-- C4: `close()` on an instance that was never opened (`session is None`) or
whose session is already closed is a no-op: the whole process state — the
instance's transport handle and the active registry included — is unchanged,
and no error is raised. -/
theorem close_noop_when_closed_or_unopened (w : World) (i : Nat)
    (h : sessionOf w i = none ∨ sessionOf w i = some ⟨true⟩) :
    close w i = w := by
  unfold close
  unfold sessionOf at h
  rcases h with h | h
  · rw [h]
  · rw [h]
    simp

/-- Witness for C4: closing the sole instance twice — the second `close` on
the now-closed instance returns the state unchanged. -/
theorem close_noop_when_closed_or_unopened_witness :
    close (close (init World.emptyWorld).1 0) 0 =
      close (init World.emptyWorld).1 0 :=
  close_noop_when_closed_or_unopened (close (init World.emptyWorld).1 0) 0
    (Or.inr rfl)

/-- C10: under every sequence of constructor, `connect()` and `close()`
calls, each instance occurs at most once in the process-wide active
registry, and an instance that has never created a transport handle (its
session attribute is still `None`) does not occur in the registry at all. -/
theorem registry_no_duplicates_and_opened_only (ops : List Op) (i : Nat) :
    (run ops).active.count i ≤ 1 ∧
    (sessionOf (run ops) i = none → i ∉ (run ops).active) := by
  obtain ⟨hnd, hmemsome, _⟩ := inv_run ops
  refine ⟨List.nodup_iff_count_le_one.mp hnd i, ?_⟩
  intro hs hmem
  obtain ⟨s, hss⟩ := hmemsome i hmem
  rw [hs] at hss
  cases hss

/-- Witness for C10: after constructing one instance, the never-constructed
index 5 has no session and is absent from the registry, which holds index 0
at most once. -/
theorem registry_no_duplicates_and_opened_only_witness :
    (run [Op.mkInstance]).active.count 5 ≤ 1 ∧
    5 ∉ (run [Op.mkInstance]).active :=
  ⟨(registry_no_duplicates_and_opened_only [Op.mkInstance] 5).1,
   (registry_no_duplicates_and_opened_only [Op.mkInstance] 5).2 rfl⟩

end Wander
